import Mathlib

/-!
Verification of the calculation-history engine of the IS601Midterm
calculator against its design specification.

The repository's `app/calculator_memento.py` and `app/history.py` are
embedded directly.  The `Calculation` class (`app/calculation.py`) and the
`Calculator` engine (`app/calculator.py`) are not present in the source
tree — only their tests and callers are — so those components are modelled
from the specification (each such definition carries a doc comment saying
so).  Decimal values are modelled by `ℚ` (the spec demands
arbitrary-precision decimals); timestamps, which are real-time creation
instants, are modelled by abstract instants `ℕ` whose ISO-8601 text
round-trip is the identity (as it is for `datetime.fromisoformat ∘
datetime.isoformat`).
-/

namespace Midterm

deriving instance DecidableEq for Except

/-- Abstract creation instant standing for a `datetime` value.  Its
ISO-8601 serialization round-trips exactly, so the text form is modelled
by the instant itself. -/
abbrev Timestamp := Nat

/-- Modelled from the spec: the distinct error kinds of the error
taxonomy for calculation construction and deserialization
(`DivisionByZero`, `NegativeExponent`, `ZeroRootUndefined`,
`NegativeRoot`, `UnknownOperation`, `InvalidData`); `app/calculation.py`
and `app/exceptions.py` are absent from the source tree. -/
inductive CalcError where
  | divisionByZero
  | negativeExponent
  | zeroRootUndefined
  | negativeRoot
  | unknownOperation
  | invalidData
deriving DecidableEq

/-- Largest `r ≤ bound` with `r ^ n ≤ k` (0 when none), found by downward
search.  Helper for the exact-root model of the `Root` operation. -/
def searchRoot (n k : Nat) : Nat → Nat
  | 0 => 0
  | r + 1 => if (r + 1) ^ n ≤ k then r + 1 else searchRoot n k r

/-- Integer part of the `n`-th root of `k`: largest `r` with `r ^ n ≤ k`
(for `0 < n`). -/
def natRoot (n k : Nat) : Nat := searchRoot n k k

/-- The exponent a decimal operand denotes when it is a nonnegative
integer (`Power` and `Root` are exact only there; the spec's table and
the repository's tests use integer exponents and root indices only). -/
def ratExp (b : ℚ) : Nat := b.num.toNat

/-- The `n`-th root of a nonnegative rational, exact whenever the operand is
a perfect `n`-th power (root of numerator over root of denominator). -/
def rootVal (a : ℚ) (n : Nat) : ℚ :=
  (natRoot n a.num.toNat : ℚ) / (natRoot n a.den : ℚ)

/-- Modelled from the spec: the §4.1 operation table of the missing
`Calculation._calculate` — operation kind (a text name, as in the tests),
two decimal operands, producing the result or the specified failure kind.
The operation-name strings are those used throughout the repository's
tests ("Addition" … "AbsoluteDifference"). -/
def compute (op : String) (a b : ℚ) : Except CalcError ℚ :=
  if op = "Addition" then .ok (a + b)
  else if op = "Subtraction" then .ok (a - b)
  else if op = "Multiplication" then .ok (a * b)
  else if op = "Division" then
    if b = 0 then .error .divisionByZero else .ok (a / b)
  else if op = "Power" then
    if b < 0 then .error .negativeExponent else .ok (a ^ ratExp b)
  else if op = "Root" then
    if b = 0 then .error .zeroRootUndefined
    else if a < 0 then .error .negativeRoot
    else .ok (rootVal a (ratExp b))
  else if op = "Modulus" then
    if b = 0 then .error .divisionByZero else .ok (a - b * ⌊a / b⌋)
  else if op = "IntegerDivision" then
    if b = 0 then .error .divisionByZero else .ok (⌊a / b⌋ : ℚ)
  else if op = "Percentage" then
    if b = 0 then .error .divisionByZero else .ok (a / b * 100)
  else if op = "AbsoluteDifference" then .ok |a - b|
  else .error .unknownOperation

/-- An immutable arithmetic fact: operation kind, two operands, the
result computed at construction, and the creation instant.  Mirrors the
fields the tests and `app/calculator_memento.py` read. -/
structure Calculation where
  operation : String
  operand1 : ℚ
  operand2 : ℚ
  result : ℚ
  timestamp : Timestamp
deriving DecidableEq

/-- Modelled from the spec: construction of a `Calculation` — compute the
result from the operation table or fail with the specified error kind,
producing no object on failure. -/
def Calculation.create (op : String) (a b : ℚ) (ts : Timestamp) :
    Except CalcError Calculation :=
  match compute op a b with
  | .error e => .error e
  | .ok r => .ok ⟨op, a, b, r, ts⟩

/-- A decimal-as-text field of a flat calculation record, abstracted by
its parse outcome: `val q` is text that parses to the decimal `q` (the
text form of a decimal round-trips exactly), `malformed` is text that
fails to parse. -/
inductive DecText where
  | val (q : ℚ)
  | malformed
deriving DecidableEq

/-- A flat calculation record: the dictionary produced by
`Calculation.to_dict` and consumed by `Calculation.from_dict`, with
columns operation, operand1, operand2, result, timestamp (all text). -/
structure CalcRecord where
  operation : String
  operand1 : DecText
  operand2 : DecText
  result : DecText
  timestamp : Timestamp
deriving DecidableEq

/-- Modelled from the spec: `Calculation.to_dict` of the missing
`app/calculation.py` — serialize each field to text (shape fixed by
`test_to_dict`). -/
def Calculation.toDict (c : Calculation) : CalcRecord :=
  ⟨c.operation, .val c.operand1, .val c.operand2, .val c.result, c.timestamp⟩

/-- Modelled from the spec: `Calculation.from_dict` of the missing
`app/calculation.py` — parse each field (operand/result parse failure →
`InvalidData`), recompute the result from operation and operands, compare
it with the stored result, and return the reconstructed calculation
together with a flag recording whether the mismatch warning was logged;
the recomputed value is authoritative. -/
def Calculation.fromDict (r : CalcRecord) : Except CalcError (Calculation × Bool) :=
  match r.operand1, r.operand2, r.result with
  | .val a, .val b, .val stored =>
    match compute r.operation a b with
    | .error e => .error e
    | .ok res => .ok (⟨r.operation, a, b, res, r.timestamp⟩, decide (stored ≠ res))
  | _, _, _ => .error .invalidData

/-- Snapshot of the calculator history (`app/calculator_memento.py`,
class `CalculatorMemento`): the history list and a creation timestamp. -/
structure CalculatorMemento where
  history : List Calculation
  timestamp : Timestamp
deriving DecidableEq

/-- The dictionary serialized from / passed to a `CalculatorMemento`,
with each of the two keys optionally present (a Python dict need not
hold either). -/
structure MementoDict where
  history : Option (List CalcRecord)
  timestamp : Option Timestamp
deriving DecidableEq

/-- Method `CalculatorMemento.to_dict` (`app/calculator_memento.py`, lines
33–46): serialize every history entry via `Calculation.to_dict` and the
timestamp via `isoformat`. -/
def CalculatorMemento.toDict (m : CalculatorMemento) : MementoDict :=
  ⟨some (m.history.map Calculation.toDict), some m.timestamp⟩

/-- Errors observable from `CalculatorMemento.from_dict`: the `KeyError`
of a missing dictionary key (a lookup error, not wrapped), or an
`OperationError` propagated from `Calculation.from_dict`. -/
inductive MementoLoadError where
  | keyError
  | calcError (e : CalcError)
deriving DecidableEq

/-- Deserialize the record list with `Calculation.from_dict`, left to
right, as the list comprehension in `CalculatorMemento.from_dict` does;
the first failing record aborts (its error propagates), and each
record's mismatch-warning flag is discarded. -/
def fromDictList : List CalcRecord → Except CalcError (List Calculation)
  | [] => .ok []
  | r :: rs =>
    match Calculation.fromDict r with
    | .error e => .error e
    | .ok (c, _) =>
      match fromDictList rs with
      | .error e => .error e
      | .ok cs => .ok (c :: cs)

/-- Method `CalculatorMemento.from_dict` (`app/calculator_memento.py`, lines
48–65): look up `data['history']` (missing key → `KeyError`),
deserialize each record (a record failure propagates), then look up
`data['timestamp']` (missing key → `KeyError`) — the Python keyword
arguments evaluate in exactly this order. -/
def CalculatorMemento.fromDict (d : MementoDict) : Except MementoLoadError CalculatorMemento :=
  match d.history with
  | none => .error .keyError
  | some rs =>
    match fromDictList rs with
    | .error e => .error (.calcError e)
    | .ok cs =>
      match d.timestamp with
      | none => .error .keyError
      | some ts => .ok ⟨cs, ts⟩

/-! ### Python list aliasing, for the memento snapshot question

`CalculatorMemento` is a `@dataclass`; its generated constructor binds
the `history` field to the caller's list object itself.  To state what
that means observationally we model Python list objects by references
into a heap of lists. -/

/-- A reference to a Python list object (its identity). -/
structure PyListRef where
  id : Nat
deriving DecidableEq

/-- The heap of live Python list-of-Calculation objects, indexed by
`PyListRef.id`. -/
abbrev PyHeap := List (List Calculation)

/-- The current contents of the list object `r` points to. -/
def readList (h : PyHeap) (r : PyListRef) : List Calculation :=
  h.getD r.id []

/-- Python `lst.append(c)` on the list object `r` points to: mutates the heap,
leaving every other object alone. -/
def appendList (h : PyHeap) (r : PyListRef) (c : Calculation) : PyHeap :=
  h.set r.id (readList h r ++ [c])

/-- Class `CalculatorMemento` as the `@dataclass` constructor actually builds
it (`app/calculator_memento.py`, lines 12–28): the `history` field holds
the caller's list *reference*, not a copy of its contents. -/
structure CalculatorMementoObj where
  history : PyListRef
  timestamp : Timestamp
deriving DecidableEq

/-- The history a stored memento object presents under the current heap:
the current contents of the list object its `history` field references. -/
def mementoHistoryNow (h : PyHeap) (m : CalculatorMementoObj) : List Calculation :=
  readList h m.history

/-- Modelled from the spec: the snapshot-copy constructor the spec (and
the memento's own docstring and `test_history_independence`) call for —
capture the list's *contents* at construction time by value. -/
def snapshotMemento (h : PyHeap) (r : PyListRef) (ts : Timestamp) : CalculatorMemento :=
  ⟨readList h r, ts⟩

/-! ### The history engine

`app/calculator.py` (class `Calculator`) is absent from the source tree;
the engine below is modelled from the spec, §4.3.  Each memento pushed on
the undo/redo stacks is represented by its history snapshot (a value, as
§4.2 requires); memento creation timestamps play no role in any
operation and are omitted. -/

/-- Modelled from the spec: the `Calculator` engine state — the live
history, the undo and redo stacks of history snapshots, and the
configured maximum history size. -/
structure Calculator where
  history : List Calculation
  undoStack : List (List Calculation)
  redoStack : List (List Calculation)
  maxHistorySize : Nat
deriving DecidableEq

/-- A freshly constructed engine: all three sequences empty. -/
def Calculator.init (maxSize : Nat) : Calculator :=
  ⟨[], [], [], maxSize⟩

/-- Modelled from the spec: "evict from the front until within bound". -/
def evictFront (maxSize : Nat) : List Calculation → List Calculation
  | [] => []
  | c :: rest => if maxSize < (c :: rest).length then evictFront maxSize rest else c :: rest

/-- Modelled from the spec: `append` (the history part of
`Calculator.perform_operation`) — push the current history as a memento
onto the undo stack, append the calculation, evict from the front while
over the size bound, clear the redo stack. -/
def Calculator.append (s : Calculator) (c : Calculation) : Calculator :=
  { history := evictFront s.maxHistorySize (s.history ++ [c])
    undoStack := s.history :: s.undoStack
    redoStack := []
    maxHistorySize := s.maxHistorySize }

/-- Modelled from the spec: `undo()` — on an empty undo stack return the
failure indicator `false` and leave the state unchanged; otherwise push
the current history onto the redo stack, pop the most recent snapshot
off the undo stack and install it as the history. -/
def Calculator.undo (s : Calculator) : Bool × Calculator :=
  match s.undoStack with
  | [] => (false, s)
  | m :: rest =>
    (true, { history := m
             undoStack := rest
             redoStack := s.history :: s.redoStack
             maxHistorySize := s.maxHistorySize })

/-- Modelled from the spec: `redo()` — symmetric to `undo`, with the
roles of the two stacks exchanged. -/
def Calculator.redo (s : Calculator) : Bool × Calculator :=
  match s.redoStack with
  | [] => (false, s)
  | m :: rest =>
    (true, { history := m
             undoStack := s.history :: s.undoStack
             redoStack := rest
             maxHistorySize := s.maxHistorySize })

/-- Modelled from the spec: `clear()` (`Calculator.clear_history`) — a
no-op failure on an already-empty history, otherwise empty all three
sequences. -/
def Calculator.clearHistory (s : Calculator) : Bool × Calculator :=
  if s.history = [] then (false, s)
  else (true, { history := [], undoStack := [], redoStack := [],
                maxHistorySize := s.maxHistorySize })

/-- A whole run of appends, left to right. -/
def Calculator.appendAll (s : Calculator) (cs : List Calculation) : Calculator :=
  cs.foldl Calculator.append s

/-- The `AttributeError` a `None` calculation provokes in either
observer variant (`app/history.py`). -/
inductive ObserverError where
  | attributeError
deriving DecidableEq

/-- Log record written by `LoggingObserver.update`: operation name,
operand values, result value (the logged information listed in
`app/history.py`). -/
structure LogEntry where
  operation : String
  operand1 : ℚ
  operand2 : ℚ
  result : ℚ
deriving DecidableEq

/-- Method `LoggingObserver.update` (`app/history.py`, lines 47–63): a `None`
calculation raises `AttributeError`; otherwise the calculation's
operation, operands and result are logged. -/
def LoggingObserver.update : Option Calculation → Except ObserverError LogEntry
  | none => .error .attributeError
  | some c => .ok ⟨c.operation, c.operand1, c.operand2, c.result⟩

/-- The collaborator handed to `AutoSaveObserver`: its `config.auto_save`
flag and its `save_history` path, modelled by the count of saves
performed so far. -/
structure AutoSaveHost where
  autoSave : Bool
  saveCount : Nat
deriving DecidableEq

/-- Method `AutoSaveObserver.update` (`app/history.py`, lines 101–115): a `None`
calculation raises `AttributeError`; otherwise `save_history` runs iff
`config.auto_save` is set. -/
def AutoSaveObserver.update (host : AutoSaveHost) :
    Option Calculation → Except ObserverError AutoSaveHost
  | none => .error .attributeError
  | some _ => .ok (if host.autoSave then ⟨host.autoSave, host.saveCount + 1⟩ else host)

/-! ## Helper lemmas -/

/-- The downward search returns `m` as soon as `m` satisfies the bound,
nothing above `m` does, and the search starts at or above `m`. -/
theorem searchRoot_eq (n k m : Nat) (hm : m ^ n ≤ k)
    (hmax : ∀ r, m < r → ¬ r ^ n ≤ k) :
    ∀ bound, m ≤ bound → searchRoot n k bound = m := by
  intro bound
  induction bound with
  | zero =>
    intro h
    simpa [searchRoot] using (Nat.le_zero.mp h).symm
  | succ r ih =>
    intro h
    rcases Nat.lt_or_ge m (r + 1) with hlt | hge
    · have : ¬ (r + 1) ^ n ≤ k := by
        rcases Nat.lt_or_ge m (r + 1) with _ | h2
        · exact fun hc => hmax (r + 1) hlt hc
        · exact fun hc => hmax (r + 1) hlt hc
      simp only [searchRoot, if_neg this]
      exact ih (Nat.lt_succ_iff.mp hlt)
    · have heq : m = r + 1 := Nat.le_antisymm h hge
      subst heq
      simp [searchRoot, hm]

/-- Function `natRoot` is exact on perfect powers. -/
theorem natRoot_pow (n m : Nat) (hn : 0 < n) : natRoot n (m ^ n) = m := by
  refine searchRoot_eq n (m ^ n) m le_rfl ?_ (m ^ n) (Nat.le_self_pow hn.ne' m)
  intro r hr hc
  exact absurd hc (Nat.not_le.mpr (Nat.pow_lt_pow_left hr hn.ne'))

/-- Function `rootVal` recovers the exact nonnegative `n`-th root of a perfect
`n`-th power. -/
theorem rootVal_exact (n : Nat) (r : ℚ) (hn : 0 < n) (hr : 0 ≤ r) :
    rootVal (r ^ n) n = r := by
  have hnum : (0 : Int) ≤ r.num := Rat.num_nonneg.mpr hr
  have h1 : (r ^ n).num.toNat = r.num.toNat ^ n := by
    rw [Rat.num_pow]
    rcases Int.eq_ofNat_of_zero_le hnum with ⟨m, hm⟩
    rw [hm, ← Nat.cast_pow]
    exact Int.toNat_natCast (m ^ n)
  have h2 : (r ^ n).den = r.den ^ n := Rat.den_pow r n
  rw [rootVal, h1, h2, natRoot_pow n r.num.toNat hn, natRoot_pow n r.den hn]
  have : ((r.num.toNat : Int) : ℚ) = (r.num : ℚ) := by
    rw [Int.toNat_of_nonneg hnum]
  push_cast at this
  rw [this, Rat.num_div_den]

/-! ## Claims -/

/-- C1: for every valid (operation, a, b) triple, constructing a
`Calculation` computes the result given by the §4.1 operation table
(Addition `a+b`; Subtraction `a-b`; Multiplication `a*b`; Division
`a/b`; Power `a^b`; Root the `b`-th root of `a`, stated through its
characterization `r ≥ 0 ∧ r^b = a`; Modulus `a mod b`; IntegerDivision
`⌊a/b⌋`; Percentage `a/b*100`; AbsoluteDifference `|a-b|`), and for
every domain-invalid input (zero divisor/modulus/percentage denominator,
negative exponent, zero root index, negative root radicand, unknown
operation name) construction fails with the specified distinct error
kind and produces no object. -/
theorem create_matches_operation_table (a b : ℚ) (ts : Timestamp) :
    (Calculation.create "Addition" a b ts = .ok ⟨"Addition", a, b, a + b, ts⟩) ∧
    (Calculation.create "Subtraction" a b ts = .ok ⟨"Subtraction", a, b, a - b, ts⟩) ∧
    (Calculation.create "Multiplication" a b ts = .ok ⟨"Multiplication", a, b, a * b, ts⟩) ∧
    (b ≠ 0 → Calculation.create "Division" a b ts = .ok ⟨"Division", a, b, a / b, ts⟩) ∧
    (b = 0 → Calculation.create "Division" a b ts = .error .divisionByZero) ∧
    (∀ n : ℕ, Calculation.create "Power" a (n : ℚ) ts = .ok ⟨"Power", a, (n : ℚ), a ^ n, ts⟩) ∧
    (b < 0 → Calculation.create "Power" a b ts = .error .negativeExponent) ∧
    (∀ (n : ℕ) (r : ℚ), 0 < n → 0 ≤ r → r ^ n = a →
      Calculation.create "Root" a (n : ℚ) ts = .ok ⟨"Root", a, (n : ℚ), r, ts⟩) ∧
    (b = 0 → Calculation.create "Root" a b ts = .error .zeroRootUndefined) ∧
    (b ≠ 0 → a < 0 → Calculation.create "Root" a b ts = .error .negativeRoot) ∧
    (b ≠ 0 → Calculation.create "Modulus" a b ts = .ok ⟨"Modulus", a, b, a - b * ⌊a / b⌋, ts⟩) ∧
    (b = 0 → Calculation.create "Modulus" a b ts = .error .divisionByZero) ∧
    (b ≠ 0 → Calculation.create "IntegerDivision" a b ts =
      .ok ⟨"IntegerDivision", a, b, (⌊a / b⌋ : ℚ), ts⟩) ∧
    (b = 0 → Calculation.create "IntegerDivision" a b ts = .error .divisionByZero) ∧
    (b ≠ 0 → Calculation.create "Percentage" a b ts = .ok ⟨"Percentage", a, b, a / b * 100, ts⟩) ∧
    (b = 0 → Calculation.create "Percentage" a b ts = .error .divisionByZero) ∧
    (Calculation.create "AbsoluteDifference" a b ts =
      .ok ⟨"AbsoluteDifference", a, b, |a - b|, ts⟩) ∧
    (∀ op : String,
      op ≠ "Addition" → op ≠ "Subtraction" → op ≠ "Multiplication" → op ≠ "Division" →
      op ≠ "Power" → op ≠ "Root" → op ≠ "Modulus" → op ≠ "IntegerDivision" →
      op ≠ "Percentage" → op ≠ "AbsoluteDifference" →
      Calculation.create op a b ts = .error .unknownOperation) := by
  refine ⟨?_, ?_, ?_, ?_, ?_, ?_, ?_, ?_, ?_, ?_, ?_, ?_, ?_, ?_, ?_, ?_, ?_, ?_⟩
  · simp +decide [Calculation.create, compute]
  · simp +decide [Calculation.create, compute]
  · simp +decide [Calculation.create, compute]
  · intro hb; simp +decide [Calculation.create, compute, hb]
  · intro hb; simp +decide [Calculation.create, compute, hb]
  · intro n
    have h1 : ¬ ((n : ℚ) < 0) := not_lt.mpr (Nat.cast_nonneg n)
    have h2 : ratExp (n : ℚ) = n := by simp [ratExp]
    simp +decide [Calculation.create, compute, h1, h2]
  · intro hb
    simp +decide [Calculation.create, compute, not_le.mpr hb, hb]
  · intro n r hn hr hra
    have hb0 : ¬ ((n : ℚ) = 0) := by
      simpa using hn.ne'
    have ha0 : ¬ (a < 0) := by
      rw [← hra]; exact not_lt.mpr (pow_nonneg hr n)
    have h2 : ratExp (n : ℚ) = n := by simp [ratExp]
    have h3 : rootVal a n = r := by rw [← hra]; exact rootVal_exact n r hn hr
    simp +decide [Calculation.create, compute, hb0, ha0, h2, h3]
  · intro hb; simp +decide [Calculation.create, compute, hb]
  · intro hb ha; simp +decide [Calculation.create, compute, hb, ha]
  · intro hb; simp +decide [Calculation.create, compute, hb]
  · intro hb; simp +decide [Calculation.create, compute, hb]
  · intro hb; simp +decide [Calculation.create, compute, hb]
  · intro hb; simp +decide [Calculation.create, compute, hb]
  · intro hb; simp +decide [Calculation.create, compute, hb]
  · intro hb; simp +decide [Calculation.create, compute, hb]
  · simp +decide [Calculation.create, compute]
  · intro op h1 h2 h3 h4 h5 h6 h7 h8 h9 h10
    simp [Calculation.create, compute, h1, h2, h3, h4, h5, h6, h7, h8, h9, h10]

/-- Witness for C1 at concrete inputs: division by two and by zero, the
square root of 16, Modulus 10 mod 3, and an unknown operation name. -/
theorem create_matches_operation_table_witness :
    (Calculation.create "Division" 8 2 0 = .ok ⟨"Division", 8, 2, 8 / 2, 0⟩) ∧
    (Calculation.create "Division" 8 0 0 = .error .divisionByZero) ∧
    (Calculation.create "Root" 16 ((2 : ℕ) : ℚ) 0 = .ok ⟨"Root", 16, ((2 : ℕ) : ℚ), 4, 0⟩) ∧
    (Calculation.create "Modulus" 10 3 0 = .ok ⟨"Modulus", 10, 3, 10 - 3 * ⌊(10 : ℚ) / 3⌋, 0⟩) ∧
    (Calculation.create "Quux" 1 1 0 = .error .unknownOperation) := by
  refine ⟨(create_matches_operation_table 8 2 0).2.2.2.1 (by norm_num),
    (create_matches_operation_table 8 0 0).2.2.2.2.1 rfl,
    ?_,
    (create_matches_operation_table 10 3 0).2.2.2.2.2.2.2.2.2.2.1 (by norm_num),
    (create_matches_operation_table 1 1 0).2.2.2.2.2.2.2.2.2.2.2.2.2.2.2.2.2 "Quux"
      (by decide) (by decide) (by decide) (by decide) (by decide) (by decide) (by decide)
      (by decide) (by decide) (by decide)⟩
  have h := (create_matches_operation_table 16 0 0).2.2.2.2.2.2.2.1 2 4
    (by norm_num) (by norm_num) (by norm_num)
  exact h

/-- C8: deserializing a calculation record whose fields parse but whose
stored result differs from the value recomputed from operation and
operands succeeds, logs the mismatch warning, and yields a `Calculation`
whose result is the recomputed value (the stored one is discarded). -/
theorem fromDict_mismatch_recomputes (op : String) (a b stored res : ℚ) (ts : Timestamp)
    (hc : compute op a b = .ok res) (hne : stored ≠ res) :
    Calculation.fromDict ⟨op, .val a, .val b, .val stored, ts⟩ =
      .ok (⟨op, a, b, res, ts⟩, true) := by
  simp only [Calculation.fromDict, hc]
  simp [hne]

/-- Witness for C8: the record storing result "10" for Addition of 2 and
3 deserializes to a calculation whose result is the recomputed 5, with
the warning logged. -/
theorem fromDict_mismatch_recomputes_witness :
    Calculation.fromDict ⟨"Addition", .val 2, .val 3, .val 10, 0⟩ =
      .ok (⟨"Addition", 2, 3, 5, 0⟩, true) :=
  fromDict_mismatch_recomputes "Addition" 2 3 10 5 0
    (by norm_num +decide [compute]) (by norm_num)

/-- Record-list deserialization inverts record-list serialization on
histories of well-formed calculations. -/
theorem fromDictList_map_toDict (H : List Calculation)
    (wf : ∀ c ∈ H, compute c.operation c.operand1 c.operand2 = .ok c.result) :
    fromDictList (H.map Calculation.toDict) = .ok H := by
  induction H with
  | nil => rfl
  | cons c rest ih =>
    have hc := wf c (List.mem_cons_self c rest)
    have hrest := ih fun x hx => wf x (List.mem_cons_of_mem c hx)
    simp only [List.map_cons, fromDictList, Calculation.toDict, Calculation.fromDict, hc, hrest]

/-- C3: for every finite history of (well-formed) calculations, the
round-trip `CalculatorMemento.from_dict (CalculatorMemento(H).to_dict())`
restores the memento exactly — every entry's operation kind, both
operands, result and timestamp, and the memento timestamp, are
preserved. -/
theorem memento_roundtrip (H : List Calculation) (ts : Timestamp)
    (wf : ∀ c ∈ H, compute c.operation c.operand1 c.operand2 = .ok c.result) :
    CalculatorMemento.fromDict (CalculatorMemento.toDict ⟨H, ts⟩) = .ok ⟨H, ts⟩ := by
  simp only [CalculatorMemento.toDict, CalculatorMemento.fromDict,
    fromDictList_map_toDict H wf]

/-- Witness for C3 at a two-entry history. -/
theorem memento_roundtrip_witness :
    CalculatorMemento.fromDict
      (CalculatorMemento.toDict ⟨[⟨"Addition", 2, 3, 5, 7⟩, ⟨"Subtraction", 10, 2, 8, 8⟩], 9⟩) =
      .ok ⟨[⟨"Addition", 2, 3, 5, 7⟩, ⟨"Subtraction", 10, 2, 8, 8⟩], 9⟩ := by
  refine memento_roundtrip _ 9 ?_
  intro c hc
  simp only [List.mem_cons, List.not_mem_nil, or_false] at hc
  rcases hc with h | h <;> subst h <;> norm_num +decide [compute]

/-- Counterexample to C10 as stated: a dictionary that lacks the
`timestamp` key but whose `history` holds a record with an unparseable
operand makes `CalculatorMemento.from_dict` raise the record's
`OperationError` (`InvalidData`), not a lookup error — the history
records are deserialized before `data['timestamp']` is ever looked up. -/
theorem fromDict_missing_timestamp_not_lookup_error :
    CalculatorMemento.fromDict
        ⟨some [⟨"Addition", .malformed, .val 3, .val 5, 0⟩], none⟩ =
      .error (.calcError .invalidData) ∧
    MementoLoadError.calcError .invalidData ≠ .keyError := by
  exact ⟨rfl, by decide⟩

/-- C10 (amended): `CalculatorMemento.from_dict` raises `KeyError` when
the `history` key is absent; when `history` is present and every record
deserializes, a missing `timestamp` key also raises `KeyError` (a record
failure, however, takes precedence over the missing `timestamp`); there
is no defaulting — deserialization succeeds only when both keys are
present. -/
theorem fromDict_requires_both_keys (d : MementoDict) :
    (d.history = none → CalculatorMemento.fromDict d = .error .keyError) ∧
    (∀ rs cs, d.history = some rs → fromDictList rs = .ok cs → d.timestamp = none →
      CalculatorMemento.fromDict d = .error .keyError) ∧
    (∀ m, CalculatorMemento.fromDict d = .ok m → d.history ≠ none ∧ d.timestamp ≠ none) := by
  obtain ⟨h, t⟩ := d
  refine ⟨?_, ?_, ?_⟩
  · intro hh
    subst hh
    rfl
  · intro rs cs hh hrs ht
    subst hh
    subst ht
    simp only [CalculatorMemento.fromDict, hrs]
  · intro m hm
    cases h with
    | none => exact absurd hm (by simp [CalculatorMemento.fromDict])
    | some rs =>
      cases t with
      | none =>
        refine absurd hm ?_
        simp only [CalculatorMemento.fromDict]
        cases fromDictList rs <;> simp
      | some ts => exact ⟨by simp, by simp⟩

/-- Witness for the amended C10: a missing `history` key and a missing
`timestamp` key (with an empty, well-deserializing history) both raise
`KeyError`. -/
theorem fromDict_requires_both_keys_witness :
    CalculatorMemento.fromDict ⟨none, some 0⟩ = .error .keyError ∧
    CalculatorMemento.fromDict ⟨some [], none⟩ = .error .keyError :=
  ⟨(fromDict_requires_both_keys ⟨none, some 0⟩).1 rfl,
   (fromDict_requires_both_keys ⟨some [], none⟩).2.1 [] [] rfl rfl rfl⟩

/-- C2 fails on the code: the `@dataclass`-generated constructor of
`CalculatorMemento` binds the `history` field to the caller's list
object itself, so appending a fourth calculation to the source list
after construction changes the history the memento presents from the
three construction-time elements to four — the repository's own
`test_history_independence` (which asserts 3) and the class docstring
("a snapshot of the calculations at the moment of creation") demand the
snapshot copy the spec describes.  The spec-modelled snapshot
constructor, by contrast, still holds the three original elements. -/
theorem memento_history_aliases_source :
    (mementoHistoryNow
        (appendList
          [[⟨"Addition", 5, 3, 8, 0⟩, ⟨"Subtraction", 10, 2, 8, 0⟩,
            ⟨"Multiplication", 4, 2, 8, 0⟩]]
          ⟨0⟩ ⟨"Addition", 99, 1, 100, 0⟩)
        ⟨⟨0⟩, 0⟩).length = 4 ∧
    (snapshotMemento
        [[⟨"Addition", 5, 3, 8, 0⟩, ⟨"Subtraction", 10, 2, 8, 0⟩,
          ⟨"Multiplication", 4, 2, 8, 0⟩]]
        ⟨0⟩ 0).history =
      [⟨"Addition", 5, 3, 8, 0⟩, ⟨"Subtraction", 10, 2, 8, 0⟩,
        ⟨"Multiplication", 4, 2, 8, 0⟩] := by
  exact ⟨rfl, rfl⟩

/-- C9: for both observer variants, notifying with `None` raises the
loud `AttributeError` rather than silently returning, while notifying
with an actual calculation does not raise on that account. -/
theorem observers_reject_none (c : Calculation) (host : AutoSaveHost) :
    LoggingObserver.update none = .error .attributeError ∧
    (LoggingObserver.update (some c)).isOk = true ∧
    AutoSaveObserver.update host none = .error .attributeError ∧
    (AutoSaveObserver.update host (some c)).isOk = true := by
  exact ⟨rfl, rfl, rfl, rfl⟩

/-- Front eviction keeps exactly the last `maxSize` elements (all of
them when the list is already within bound). -/
theorem evictFront_eq_drop (maxSize : Nat) (l : List Calculation) :
    evictFront maxSize l = l.drop (l.length - maxSize) := by
  induction l with
  | nil => simp [evictFront]
  | cons c rest ih =>
    by_cases h : maxSize < (c :: rest).length
    · simp only [evictFront, if_pos h]
      rw [ih]
      have hle : maxSize ≤ rest.length := by
        simp only [List.length_cons] at h
        omega
      have : (c :: rest).length - maxSize = (rest.length - maxSize) + 1 := by
        simp only [List.length_cons]
        omega
      rw [this]
      rfl
    · simp only [evictFront, if_neg h]
      have : (c :: rest).length - maxSize = 0 := by
        simp only [List.length_cons] at h ⊢
        omega
      rw [this]
      rfl

/-- Keeping the last `maxSize` elements, appending, and keeping the last
`maxSize` elements again is the same as appending and keeping the last
`maxSize` elements once. -/
theorem drop_bound_append (l cs : List Calculation) (maxSize : Nat) :
    ((l.drop (l.length - maxSize)) ++ cs).drop
        (((l.drop (l.length - maxSize)) ++ cs).length - maxSize) =
      (l ++ cs).drop ((l ++ cs).length - maxSize) := by
  by_cases hl : l.length ≤ maxSize
  · have : l.length - maxSize = 0 := by omega
    rw [this]
    rfl
  · push_neg at hl
    have e1 : ((l.drop (l.length - maxSize)) ++ cs).length - maxSize = cs.length := by
      rw [List.length_append, List.length_drop]
      omega
    have e2 : (l ++ cs).length - maxSize = l.length + cs.length - maxSize := by
      rw [List.length_append]
    rw [e1, e2, List.drop_append_eq_append_drop, List.drop_append_eq_append_drop,
      List.drop_drop]
    have e3 : l.length - maxSize + cs.length = l.length + cs.length - maxSize := by
      omega
    have e4 : cs.length - (l.drop (l.length - maxSize)).length
        = l.length + cs.length - maxSize - l.length := by
      rw [List.length_drop]
      omega
    rw [e3, e4]

/-- After any run of appends from a state whose history is within bound,
the history is the last `maxHistorySize` elements of the old history
followed by the appended calculations, and the bound is unchanged. -/
theorem appendAll_history (cs : List Calculation) :
    ∀ s : Calculator, s.history.length ≤ s.maxHistorySize →
      (s.appendAll cs).history =
        (s.history ++ cs).drop ((s.history ++ cs).length - s.maxHistorySize) ∧
      (s.appendAll cs).maxHistorySize = s.maxHistorySize := by
  induction cs with
  | nil =>
    intro s hs
    refine ⟨?_, rfl⟩
    simp only [Calculator.appendAll, List.foldl_nil, List.append_nil]
    rw [Nat.sub_eq_zero_of_le hs, List.drop_zero]
  | cons c rest ih =>
    intro s hs
    have happ : (s.append c).history =
        (s.history ++ [c]).drop ((s.history ++ [c]).length - s.maxHistorySize) := by
      simp [Calculator.append, evictFront_eq_drop]
    have hmax : (s.append c).maxHistorySize = s.maxHistorySize := rfl
    have hlen : (s.append c).history.length ≤ (s.append c).maxHistorySize := by
      rw [happ, hmax, List.length_drop]
      omega
    obtain ⟨h1, h2⟩ := ih (s.append c) hlen
    have hfold : s.appendAll (c :: rest) = (s.append c).appendAll rest := rfl
    refine ⟨?_, by rw [hfold, h2, hmax]⟩
    rw [hfold, h1, hmax, happ]
    have : s.history ++ c :: rest = (s.history ++ [c]) ++ rest := by simp
    rw [this]
    exact drop_bound_append (s.history ++ [c]) rest s.maxHistorySize

/-- C4: when more calculations are appended than `maxHistorySize`
allows, the final history has exactly `maxHistorySize` entries and they
are exactly the most recently appended ones in insertion order; in
particular, with bound 3 and five appends with operands (0,0)…(4,4) the
history holds the entries for (2,2), (3,3), (4,4) in that order. -/
theorem history_bounded_to_most_recent (maxSize : Nat) (cs : List Calculation)
    (h : maxSize < cs.length) :
    ((Calculator.init maxSize).appendAll cs).history = cs.drop (cs.length - maxSize) ∧
    ((Calculator.init maxSize).appendAll cs).history.length = maxSize ∧
    ((Calculator.init 3).appendAll
        [⟨"Addition", 0, 0, 0, 0⟩, ⟨"Addition", 1, 1, 2, 0⟩, ⟨"Addition", 2, 2, 4, 0⟩,
          ⟨"Addition", 3, 3, 6, 0⟩, ⟨"Addition", 4, 4, 8, 0⟩]).history =
      [⟨"Addition", 2, 2, 4, 0⟩, ⟨"Addition", 3, 3, 6, 0⟩, ⟨"Addition", 4, 4, 8, 0⟩] := by
  obtain ⟨h1, _⟩ := appendAll_history cs (Calculator.init maxSize) (by simp [Calculator.init])
  have hist_eq : ((Calculator.init maxSize).appendAll cs).history =
      cs.drop (cs.length - maxSize) := by
    simpa [Calculator.init] using h1
  refine ⟨hist_eq, ?_, rfl⟩
  rw [hist_eq, List.length_drop]
  omega

/-- Witness for C4: the five-append, bound-3 scenario itself. -/
theorem history_bounded_to_most_recent_witness :
    ((Calculator.init 3).appendAll
        [⟨"Addition", 0, 0, 0, 0⟩, ⟨"Addition", 1, 1, 2, 0⟩, ⟨"Addition", 2, 2, 4, 0⟩,
          ⟨"Addition", 3, 3, 6, 0⟩, ⟨"Addition", 4, 4, 8, 0⟩]).history =
      [⟨"Addition", 0, 0, 0, 0⟩, ⟨"Addition", 1, 1, 2, 0⟩, ⟨"Addition", 2, 2, 4, 0⟩,
        ⟨"Addition", 3, 3, 6, 0⟩, ⟨"Addition", 4, 4, 8, 0⟩].drop (5 - 3) ∧
    ((Calculator.init 3).appendAll
        [⟨"Addition", 0, 0, 0, 0⟩, ⟨"Addition", 1, 1, 2, 0⟩, ⟨"Addition", 2, 2, 4, 0⟩,
          ⟨"Addition", 3, 3, 6, 0⟩, ⟨"Addition", 4, 4, 8, 0⟩]).history.length = 3 := by
  have h := history_bounded_to_most_recent 3
    [⟨"Addition", 0, 0, 0, 0⟩, ⟨"Addition", 1, 1, 2, 0⟩, ⟨"Addition", 2, 2, 4, 0⟩,
      ⟨"Addition", 3, 3, 6, 0⟩, ⟨"Addition", 4, 4, 8, 0⟩] (by simp)
  exact ⟨h.1, h.2.1⟩

/-- C5: the redo stack is empty immediately after any mutating
non-undo/redo operation — after every `append`, and after every `clear`
that actually clears (on empty history `clear` is a failing no-op and
mutates nothing); in particular, a new calculation performed after an
undo empties the then-nonempty redo stack. -/
theorem redoStack_empty_after_mutation :
    (∀ (s : Calculator) (c : Calculation), (s.append c).redoStack = []) ∧
    (∀ s : Calculator, s.history ≠ [] → (s.clearHistory).2.redoStack = []) ∧
    ((((Calculator.init 10).append ⟨"Addition", 2, 3, 5, 0⟩).undo).2.redoStack ≠ []) ∧
    (((((Calculator.init 10).append ⟨"Addition", 2, 3, 5, 0⟩).undo).2.append
        ⟨"Addition", 5, 5, 10, 0⟩).redoStack = []) := by
  refine ⟨fun s c => rfl, ?_, ?_, rfl⟩
  · intro s hs
    simp [Calculator.clearHistory, hs]
  · exact List.cons_ne_nil _ _

/-- Witness for C5: clearing an engine whose history is nonempty and
whose redo stack is nonempty leaves the redo stack empty. -/
theorem redoStack_empty_after_mutation_witness :
    ((Calculator.clearHistory
        ⟨[⟨"Addition", 2, 3, 5, 0⟩], [[]], [[⟨"Addition", 2, 3, 5, 0⟩]], 10⟩).2.redoStack = []) ∧
    ((Calculator.append ⟨[], [], [[⟨"Addition", 2, 3, 5, 0⟩]], 10⟩
        ⟨"Addition", 5, 5, 10, 0⟩).redoStack = []) :=
  ⟨redoStack_empty_after_mutation.2.1
      ⟨[⟨"Addition", 2, 3, 5, 0⟩], [[]], [[⟨"Addition", 2, 3, 5, 0⟩]], 10⟩
      (List.cons_ne_nil _ _),
   redoStack_empty_after_mutation.1 ⟨[], [], [[⟨"Addition", 2, 3, 5, 0⟩]], 10⟩
      ⟨"Addition", 5, 5, 10, 0⟩⟩

/-- C6: `undo` restores the history from immediately before the last
append, and `redo` restores the history from immediately before the last
undo — in general, and in the two spec scenarios (one append, undo, redo
round-trip; two appends, two undos to empty, two redos restoring both
entries in order). -/
theorem undo_redo_restore :
    (∀ (s : Calculator) (c : Calculation),
      ((s.append c).undo).1 = true ∧ ((s.append c).undo).2.history = s.history) ∧
    (∀ s s' : Calculator, s.undo = (true, s') →
      (s'.redo).1 = true ∧ (s'.redo).2.history = s.history) ∧
    ((((Calculator.init 100).append ⟨"Addition", 2, 3, 5, 0⟩).undo).2.history = []) ∧
    (((((Calculator.init 100).append ⟨"Addition", 2, 3, 5, 0⟩).undo).2.redo).2.history =
      [⟨"Addition", 2, 3, 5, 0⟩]) ∧
    (((((Calculator.init 100).append ⟨"Addition", 2, 3, 5, 0⟩).append
        ⟨"Addition", 5, 5, 10, 0⟩).undo.2.undo).2.history = []) ∧
    ((((((Calculator.init 100).append ⟨"Addition", 2, 3, 5, 0⟩).append
        ⟨"Addition", 5, 5, 10, 0⟩).undo.2.undo).2.redo.2.redo).2.history =
      [⟨"Addition", 2, 3, 5, 0⟩, ⟨"Addition", 5, 5, 10, 0⟩]) := by
  refine ⟨fun s c => ⟨rfl, rfl⟩, ?_, rfl, rfl, rfl, rfl⟩
  intro s s' h
  cases hs : s.undoStack with
  | nil =>
    rw [Calculator.undo, hs] at h
    simp at h
  | cons m rest =>
    rw [Calculator.undo, hs] at h
    injection h with h1 h2
    subst h2
    exact ⟨rfl, rfl⟩

/-- Witness for C6's redo-after-undo clause at a concrete state. -/
theorem undo_redo_restore_witness :
    ((Calculator.redo ⟨[⟨"Addition", 2, 3, 5, 0⟩], [], [[]], 10⟩).2.history = []) :=
  (undo_redo_restore.2.1 ⟨[], [[⟨"Addition", 2, 3, 5, 0⟩]], [], 10⟩
    ⟨[⟨"Addition", 2, 3, 5, 0⟩], [], [[]], 10⟩ rfl).2

/-- C7: with an empty undo stack, `undo` returns the failure indicator
`false` and leaves the whole state (history and both stacks) unchanged;
symmetrically for `redo` with an empty redo stack. -/
theorem undo_redo_empty_stack_noop (s : Calculator) :
    (s.undoStack = [] → s.undo = (false, s)) ∧
    (s.redoStack = [] → s.redo = (false, s)) := by
  constructor
  · intro h
    rw [Calculator.undo, h]
  · intro h
    rw [Calculator.redo, h]

/-- Witness for C7: a fresh engine refuses both undo and redo,
unchanged. -/
theorem undo_redo_empty_stack_noop_witness :
    (Calculator.init 5).undo = (false, Calculator.init 5) ∧
    (Calculator.init 5).redo = (false, Calculator.init 5) :=
  ⟨(undo_redo_empty_stack_noop (Calculator.init 5)).1 rfl,
   (undo_redo_empty_stack_noop (Calculator.init 5)).2 rfl⟩

end Midterm
